import Mathlib

/-! Encrypted-request proxy: shallow embedding of `main.go`.

The Go handler `proxyHandler` is embedded as a pure function from an
environment (the process environment, the URL parser used by
`http.NewRequestWithContext`, and the upstream round trip
`http.DefaultClient.Do`), the state of the `http.ResponseWriter` and the
inbound request, to the final state of the writer together with the list of
requests handed to the upstream client.

`http.Header` is a Go `map[string][]string`; it is embedded as an association
list whose first entry for a key is the map entry.  `Get`, `Set` and `Del`
follow `net/textproto.MIMEHeader`, including the canonicalisation of the key.
The `http.ResponseWriter` is embedded as a recorder of the calls made through
the interface: the live header map, the status code and header snapshot taken
by the first `WriteHeader`, the bytes written and the number of flushes.
Calls to the `log` package have no effect on the request or the response and
are left out.
-/

namespace Proxy

/-! ## Header maps (`net/http.Header`, `net/textproto.MIMEHeader`) -/

abbrev Bytes := List UInt8

abbrev Header := List (String × List String)

/-- Token characters of RFC 7230, the table `isTokenTable` that
`textproto.validHeaderFieldByte` consults. -/
def validHeaderFieldByte (c : Char) : Bool :=
  c.isAlphanum ||
    ['!', '#', '$', '%', '&', '\x27', '*', '+', '-', '.', '^', '_', '\x60', '|', '~'].contains c

/-- The rewriting loop of `textproto.canonicalMIMEHeaderKey`: upper case for
the first letter and for each letter after a dash, lower case elsewhere. -/
def canonicalLoop : Bool → List Char → List Char
  | _, [] => []
  | upper, c :: cs =>
    let d := if upper && c.isLower then c.toUpper
             else if !upper && c.isUpper then c.toLower
             else c
    d :: canonicalLoop (d == '-') cs

/-- The function `textproto.CanonicalMIMEHeaderKey`: a key with a byte that
is not a token character is returned unchanged. -/
def CanonicalMIMEHeaderKey (s : String) : String :=
  if s.data.all validHeaderFieldByte then String.mk (canonicalLoop true s.data) else s

/-- The map index `h[key]` of Go, with presence. -/
def Header.values (h : Header) (key : String) : Option (List String) :=
  h.lookup key

/-- The method `Header.Get`: first value under the canonical key, or the empty string. -/
def Header.Get (h : Header) (key : String) : String :=
  match h.values (CanonicalMIMEHeaderKey key) with
  | some (v :: _) => v
  | _ => ""

/-- The method `Header.Del`: the canonical key is removed from the map. -/
def Header.Del (h : Header) (key : String) : Header :=
  h.filter (fun e => e.1 != CanonicalMIMEHeaderKey key)

/-- The method `Header.Set`: the canonical key is bound to the single value. -/
def Header.Set (h : Header) (key value : String) : Header :=
  (CanonicalMIMEHeaderKey key, [value]) :: h.Del key

/-! ## Constants of `main.go` and of `net/http` -/

def enclaveURLHeader : String := "X-Tinfoil-Enclave-Url"

def allowHeaders : String :=
  "Accept, Authorization, Content-Type, Ehbp-Encapsulated-Key, X-Tinfoil-Enclave-Url, Your-Custom-Request-Header"

def exposeHeaders : String :=
  "Ehbp-Response-Nonce, Ehbp-Fallback, Your-Custom-Response-Header"

def ehbpRequestHeaders : List String := ["Ehbp-Encapsulated-Key"]

def ehbpResponseHeaders : List String := ["Ehbp-Response-Nonce", "Ehbp-Fallback"]

def MethodOptions : String := "OPTIONS"

def MethodPost : String := "POST"

def StatusOK : Nat := 200

def StatusNoContent : Nat := 204

def StatusBadRequest : Nat := 400

def StatusInternalServerError : Nat := 500

def StatusBadGateway : Nat := 502

/-! ## Requests, responses and the environment -/

/-- A body stream (`io.ReadCloser`): the non-error results of the successive
`Read` calls, followed by `io.EOF` (`err = none`) or by a read error. -/
structure Body where
  chunks : List Bytes
  err : Option String
deriving DecidableEq

/-- The inbound `*http.Request`, with the fields the handler reads
(`Path` stands for `r.URL.Path`). -/
structure Request where
  Method : String
  Path : String
  Header : Header
  Body : Body
deriving DecidableEq

/-- The outbound `*http.Request` built by `http.NewRequestWithContext`;
`URL` is the string the request was built from. -/
structure UpstreamRequest where
  Method : String
  URL : String
  Header : Header
  Body : Body
deriving DecidableEq

/-- The upstream `*http.Response`. -/
structure Response where
  StatusCode : Nat
  Header : Header
  Body : Body
deriving DecidableEq

/-- What the handler consults outside its arguments: `os.Getenv`, the error
of `url.Parse` inside `http.NewRequestWithContext` (`none` on success), and
`http.DefaultClient.Do`. -/
structure Env where
  Getenv : String → String
  urlParseErr : String → Option String
  Do : UpstreamRequest → Except String Response

/-- The function `http.NewRequestWithContext` for a valid method and a
non-nil context: it fails exactly when the URL does not parse, and otherwise
returns a request with an empty header map. -/
def NewRequestWithContext (env : Env) (method url : String) (body : Body) :
    Except String UpstreamRequest :=
  match env.urlParseErr url with
  | some err => .error err
  | none => .ok { Method := method, URL := url, Header := [], Body := body }

/-! ## The response writer -/

/-- State of an `http.ResponseWriter`.  `committed` is the status code and
the snapshot of the header map taken by the first `WriteHeader`; `budget` is
the number of bytes the client connection still accepts (`none`: no limit),
a write beyond it is short and returns an error; `isFlusher` records whether
the writer implements `http.Flusher`. -/
structure ResponseWriter where
  Header : Header
  committed : Option (Nat × Proxy.Header)
  body : Bytes
  flushes : Nat
  budget : Option Nat
  isFlusher : Bool
deriving DecidableEq

/-- Status code sent to the client, if one was written. -/
def ResponseWriter.status (w : ResponseWriter) : Option Nat :=
  w.committed.map (fun c => c.1)

/-- Header map as it stood when the status was written. -/
def ResponseWriter.sentHeader (w : ResponseWriter) : Proxy.Header :=
  match w.committed with
  | some c => c.2
  | none => []

/-- The method `WriteHeader`: the first call commits the status code and the
current header map, later calls are ignored. -/
def ResponseWriter.WriteHeader (w : ResponseWriter) (code : Nat) : ResponseWriter :=
  match w.committed with
  | some _ => w
  | none => { w with committed := some (code, w.Header) }

/-- The method `Write`: an implicit `WriteHeader(200)` when no status was
written, then the bytes are appended; returns the count and the error. -/
def ResponseWriter.Write (w : ResponseWriter) (p : Bytes) :
    ResponseWriter × Nat × Option String :=
  let w1 := w.WriteHeader StatusOK
  match w1.budget with
  | none => ({ w1 with body := w1.body ++ p }, p.length, none)
  | some b =>
    if p.length ≤ b then
      ({ w1 with body := w1.body ++ p, budget := some (b - p.length) }, p.length, none)
    else
      ({ w1 with body := w1.body ++ p.take b, budget := some 0 }, b, some "write: broken pipe")

/-- The method `Flush` of `http.Flusher`. -/
def ResponseWriter.Flush (w : ResponseWriter) : ResponseWriter :=
  let w1 := w.WriteHeader StatusOK
  { w1 with flushes := w1.flushes + 1 }

/-- Bytes of a string (Go strings are UTF-8 byte sequences). -/
def bytesOf (s : String) : Bytes :=
  s.data.flatMap String.utf8EncodeChar

/-- The function `http.Error`: clears `Content-Length`, sets the plain-text
content type and `nosniff`, writes the status, then the message and a newline. -/
def Error (w : ResponseWriter) (error : String) (code : Nat) : ResponseWriter :=
  let h := w.Header.Del "Content-Length"
  let h := h.Set "Content-Type" "text/plain; charset=utf-8"
  let h := h.Set "X-Content-Type-Options" "nosniff"
  let w := { w with Header := h }
  let w := w.WriteHeader code
  (w.Write (bytesOf error ++ bytesOf "\n")).1

/-! ## `io.Copy` -/

/-- The generic loop of `io.Copy` (`io.copyBuffer`) over a writer with state
`W`: reads until EOF or an error, writes every non-empty read, stops at the
first write error or short write.  Returns the writer, the number of bytes
written and the error.  The `io.WriterTo` and `io.ReaderFrom` shortcuts of
`io.Copy` deliver the same bytes and are not modelled apart. -/
def ioCopy {W : Type} (write : W → Bytes → W × Nat × Option String) (er : Option String) :
    W → List Bytes → Nat → W × Nat × Option String
  | dst, [], written => (dst, written, er)
  | dst, p :: rest, written =>
    if 0 < p.length then
      let res := write dst p
      let invalid : Bool := decide (p.length < res.2.1)
      let nw := if invalid then 0 else res.2.1
      let ew := if invalid && res.2.2.isNone then some "invalid write result" else res.2.2
      match ew with
      | some e => (res.1, written + nw, some e)
      | none =>
        if p.length ≠ nw then (res.1, written + nw, some "short write")
        else ioCopy write er res.1 rest (written + nw)
    else ioCopy write er dst rest written

/-- The call `io.Copy(dst, src)`. -/
def Copy {W : Type} (write : W → Bytes → W × Nat × Option String) (dst : W) (src : Body) :
    W × Nat × Option String :=
  ioCopy write src.err dst src.chunks 0

/-! ## `main.go` -/

/-- The type `flushWriter`: the embedded writer and whether the embedded
`http.Flusher` is non-nil (it is the same object as the writer). -/
structure flushWriter where
  ResponseWriter : ResponseWriter
  Flusher : Bool
deriving DecidableEq

/-- The method `(*flushWriter).Write`. -/
def flushWriter.Write (fw : flushWriter) (p : Bytes) : flushWriter × Nat × Option String :=
  let res := fw.ResponseWriter.Write p
  let fw1 := { fw with ResponseWriter := res.1 }
  let fw2 := if fw1.Flusher then { fw1 with ResponseWriter := fw1.ResponseWriter.Flush } else fw1
  (fw2, res.2.1, res.2.2)

/-- The function `copyHeaders`. -/
def copyHeaders (dst src : Header) (keys : List String) : Header :=
  keys.foldl
    (fun dst key =>
      let value := src.Get key
      if value ≠ "" then dst.Set key value else dst)
    dst

/-- Outcome of one run of the handler: the writer as the handler leaves it,
and the requests passed to `http.DefaultClient.Do`, in order. -/
structure Result where
  w : ResponseWriter
  calls : List UpstreamRequest

/-- The function `proxyHandler`.  The header maps `w.Header()` and
`req.Header` are mutated in place by the Go code; here each mutation rebinds
the map, which is stored back before the writer or the request is used.
The `log` calls, the read of `Your-Custom-Request-Header` that only feeds a
log line, and `defer resp.Body.Close()` change neither the upstream request
nor the response and have no counterpart. -/
def proxyHandler (env : Env) (w : ResponseWriter) (r : Request) : Result :=
  let h := w.Header.Set "Access-Control-Allow-Origin" "*"
  let h := h.Set "Access-Control-Allow-Methods" "POST, OPTIONS"
  let h := h.Set "Access-Control-Allow-Headers" allowHeaders
  let h := h.Set "Access-Control-Expose-Headers" exposeHeaders
  let w := { w with Header := h }
  if r.Method = MethodOptions then
    { w := w.WriteHeader StatusNoContent, calls := [] }
  else
    let upstreamBase := r.Header.Get enclaveURLHeader
    if upstreamBase = "" then
      { w := Error w "X-Tinfoil-Enclave-Url header required" StatusBadRequest, calls := [] }
    else
      let upstreamURL := upstreamBase ++ r.Path
      match NewRequestWithContext env MethodPost upstreamURL r.Body with
      | .error err => { w := Error w err StatusInternalServerError, calls := [] }
      | .ok req =>
        let rh := req.Header.Set "Content-Type" "application/json"
        let accept := r.Header.Get "Accept"
        let rh := if accept ≠ "" then rh.Set "Accept" accept else rh
        let apiKey := env.Getenv "TINFOIL_API_KEY"
        if apiKey = "" then
          { w := Error w "TINFOIL_API_KEY not set" StatusInternalServerError, calls := [] }
        else
          let rh := rh.Set "Authorization" ("Bearer " ++ apiKey)
          let rh := copyHeaders rh r.Header ehbpRequestHeaders
          let req := { req with Header := rh }
          match env.Do req with
          | .error err => { w := Error w err StatusBadGateway, calls := [req] }
          | .ok resp =>
            let h := copyHeaders w.Header resp.Header ehbpResponseHeaders
            let ct := resp.Header.Get "Content-Type"
            let h := if ct ≠ "" then h.Set "Content-Type" ct else h
            let h := h.Set "Your-Custom-Response-Header" "response-value"
            let te := resp.Header.Get "Transfer-Encoding"
            let h := if te ≠ "" then (h.Set "Transfer-Encoding" te).Del "Content-Length" else h
            let w := { w with Header := h }
            let w := w.WriteHeader resp.StatusCode
            if w.isFlusher then
              let fw : flushWriter := { ResponseWriter := w, Flusher := true }
              { w := (Copy flushWriter.Write fw resp.Body).1.ResponseWriter, calls := [req] }
            else
              { w := (Copy ResponseWriter.Write w resp.Body).1, calls := [req] }

/-! ## Predicates and closed forms used in the statements and proofs -/

/-- The client connection still accepts `n` more bytes. -/
def ResponseWriter.accepts (w : ResponseWriter) (n : Nat) : Prop :=
  ∀ b, w.budget = some b → n ≤ b

/-- Spec side of the delivery claim: the byte sequence received from the
upstream, that is its chunks concatenated in order. -/
def Body.bytes (b : Body) : Bytes :=
  b.chunks.flatten

/-- Two writer states that the client cannot tell apart: they differ at most
in the flush count and in the flush capability. -/
def sameClient (a b : ResponseWriter) : Prop :=
  a.Header = b.Header ∧ a.committed = b.committed ∧ a.body = b.body ∧ a.budget = b.budget

/-- The four CORS headers with the values the handler sets. -/
def hasCORS (h : Header) : Prop :=
  h.values "Access-Control-Allow-Origin" = some ["*"] ∧
    h.values "Access-Control-Allow-Methods" = some ["POST, OPTIONS"] ∧
    h.values "Access-Control-Allow-Headers" = some [allowHeaders] ∧
    h.values "Access-Control-Expose-Headers" = some [exposeHeaders]

/-- Conditions under which the handler reaches the upstream call. -/
def forwards (env : Env) (r : Request) : Prop :=
  r.Method ≠ MethodOptions ∧ r.Header.Get enclaveURLHeader ≠ "" ∧
    env.urlParseErr (r.Header.Get enclaveURLHeader ++ r.Path) = none ∧
    env.Getenv "TINFOIL_API_KEY" ≠ ""

/-- Header map of the request handed to the upstream client. -/
def forwardedHeader (apiKey : String) (h : Header) : Header :=
  let q : Header := Header.Set [] "Content-Type" "application/json"
  let q := if h.Get "Accept" ≠ "" then q.Set "Accept" (h.Get "Accept") else q
  let q := q.Set "Authorization" ("Bearer " ++ apiKey)
  copyHeaders q h ehbpRequestHeaders

/-- Request handed to the upstream client when the handler forwards. -/
def forwardedRequest (env : Env) (r : Request) : UpstreamRequest :=
  { Method := MethodPost
    URL := r.Header.Get enclaveURLHeader ++ r.Path
    Header := forwardedHeader (env.Getenv "TINFOIL_API_KEY") r.Header
    Body := r.Body }

/-- Header map of the writer after the four CORS headers are set. -/
def corsHeader (h : Header) : Header :=
  (((h.Set "Access-Control-Allow-Origin" "*").Set "Access-Control-Allow-Methods"
    "POST, OPTIONS").Set "Access-Control-Allow-Headers" allowHeaders).Set
    "Access-Control-Expose-Headers" exposeHeaders

/-- Header map of the writer when the status of a forwarded response is written. -/
def clientHeader (h : Header) (resp : Response) : Header :=
  let h := copyHeaders (corsHeader h) resp.Header ehbpResponseHeaders
  let h := if resp.Header.Get "Content-Type" ≠ "" then
      h.Set "Content-Type" (resp.Header.Get "Content-Type") else h
  let h := h.Set "Your-Custom-Response-Header" "response-value"
  if resp.Header.Get "Transfer-Encoding" ≠ "" then
    (h.Set "Transfer-Encoding" (resp.Header.Get "Transfer-Encoding")).Del "Content-Length"
  else h

/-- Writer of a forwarded response right after `WriteHeader`. -/
def committedWriter (w : ResponseWriter) (resp : Response) : ResponseWriter :=
  ResponseWriter.WriteHeader { w with Header := clientHeader w.Header resp } resp.StatusCode

/-! ## Example inputs -/

/-- Upstream answer: status 200, a nonce header, a transfer encoding and a
body read in two chunks. -/
def exampleResponse : Response :=
  { StatusCode := 200
    Header := [("Ehbp-Response-Nonce", ["n1"]), ("Transfer-Encoding", ["chunked"])]
    Body := { chunks := [[123, 34], [125]], err := none } }

/-- Environment with the credential set, every URL parsing, and an upstream
that answers `exampleResponse`. -/
def exampleEnv : Env where
  Getenv := fun k => if k = "TINFOIL_API_KEY" then "secret" else ""
  urlParseErr := fun _ => none
  Do := fun _ => .ok exampleResponse

/-- Environment without the credential. -/
def noKeyEnv : Env := { exampleEnv with Getenv := fun _ => "" }

/-- Upstream answer with two values for the nonce header. -/
def twoNonceResponse : Response :=
  { StatusCode := 200
    Header := [("Ehbp-Response-Nonce", ["n1", "n2"])]
    Body := { chunks := [], err := none } }

/-- Environment whose upstream answers `twoNonceResponse`. -/
def twoNonceEnv : Env :=
  { exampleEnv with Do := fun _ => .ok twoNonceResponse }

/-- Writer as the server hands it to the handler, with flush support. -/
def exampleWriter : ResponseWriter :=
  { Header := [], committed := none, body := [], flushes := 0, budget := none, isFlusher := true }

/-- Writer that already holds a `Content-Length` header when the handler starts. -/
def lengthWriter : ResponseWriter :=
  { exampleWriter with Header := [("Content-Length", ["3"])] }

/-- Inbound POST with the target header, a client-chosen authorization
value, the encapsulated key and the side-channel header. -/
def exampleRequest : Request :=
  { Method := "POST"
    Path := "/v1/chat/completions"
    Header := [("X-Tinfoil-Enclave-Url", ["https://h"]), ("Authorization", ["Bearer client"]),
      ("Ehbp-Encapsulated-Key", ["abc"]), ("Your-Custom-Request-Header", ["x"])]
    Body := { chunks := [[123, 125]], err := none } }

/-- Request that the handler hands to the upstream for `exampleRequest` under
`exampleEnv`. -/
def exampleUpstreamRequest : UpstreamRequest :=
  { Method := "POST"
    URL := "https://h/v1/chat/completions"
    Header := [("Ehbp-Encapsulated-Key", ["abc"]), ("Authorization", ["Bearer secret"]),
      ("Content-Type", ["application/json"])]
    Body := { chunks := [[123, 125]], err := none } }

/-- Inbound request whose encapsulated-key header is present with an empty value. -/
def emptyKeyRequest : Request :=
  { Method := "POST"
    Path := "/v1/chat/completions"
    Header := [("X-Tinfoil-Enclave-Url", ["https://h"]), ("Ehbp-Encapsulated-Key", [""])]
    Body := { chunks := [], err := none } }

/-- Request that the handler hands to the upstream for `emptyKeyRequest` under
`exampleEnv`. -/
def emptyKeyUpstreamRequest : UpstreamRequest :=
  { Method := "POST"
    URL := "https://h/v1/chat/completions"
    Header := [("Authorization", ["Bearer secret"]), ("Content-Type", ["application/json"])]
    Body := { chunks := [], err := none } }

/-! ## Header map lemmas -/

theorem values_Del (h : Header) (k k2 : String) :
    (h.Del k).values k2 = if k2 = CanonicalMIMEHeaderKey k then none else h.values k2 := by
  induction h with
  | nil => simp [Header.Del, Header.values]
  | cons e t ih =>
    obtain ⟨a, b⟩ := e
    simp only [Header.Del, Header.values] at ih ⊢
    by_cases ha : a = CanonicalMIMEHeaderKey k
    · subst ha
      simp only [List.filter_cons, bne_self_eq_false, Bool.false_eq_true, if_false, ih]
      by_cases hk : k2 = CanonicalMIMEHeaderKey k
      · simp [hk]
      · have hb : (k2 == CanonicalMIMEHeaderKey k) = false := by simpa using hk
        simp [hk, hb, List.lookup_cons]
    · have hne : (a != CanonicalMIMEHeaderKey k) = true := by simpa using ha
      simp only [List.filter_cons, hne, if_true, List.lookup_cons, ih]
      by_cases hk : k2 = CanonicalMIMEHeaderKey k
      · subst hk
        have : (CanonicalMIMEHeaderKey k == a) = false := by
          simpa using fun h => ha h.symm
        simp [this]
      · simp [hk]

theorem values_Set (h : Header) (k v k2 : String) :
    (h.Set k v).values k2 = if k2 = CanonicalMIMEHeaderKey k then some [v] else h.values k2 := by
  have hd := values_Del h k k2
  simp only [Header.values] at hd
  simp only [Header.Set, Header.values, List.lookup_cons, hd]
  by_cases hk : k2 = CanonicalMIMEHeaderKey k
  · simp [hk]
  · have hb : (k2 == CanonicalMIMEHeaderKey k) = false := by simpa using hk
    simp [hk, hb]

theorem values_copyHeaders_of_not_mem (src : Header) (keys : List String) (k2 : String)
    (hk : ∀ key ∈ keys, k2 ≠ CanonicalMIMEHeaderKey key) (dst : Header) :
    (copyHeaders dst src keys).values k2 = dst.values k2 := by
  induction keys generalizing dst with
  | nil => simp [copyHeaders]
  | cons key rest ih =>
    have h1 : k2 ≠ CanonicalMIMEHeaderKey key := hk key (List.mem_cons_self _ _)
    have h2 : ∀ key ∈ rest, k2 ≠ CanonicalMIMEHeaderKey key :=
      fun x hx => hk x (List.mem_cons_of_mem _ hx)
    simp only [copyHeaders, List.foldl_cons] at ih ⊢
    rw [ih h2]
    by_cases hv : src.Get key = ""
    · simp [hv]
    · simp [hv, values_Set, h1]

/-! ## Writer lemmas -/

theorem WriteHeader_Header (w : ResponseWriter) (c : Nat) : (w.WriteHeader c).Header = w.Header := by
  unfold ResponseWriter.WriteHeader; split <;> rfl

theorem WriteHeader_body (w : ResponseWriter) (c : Nat) : (w.WriteHeader c).body = w.body := by
  unfold ResponseWriter.WriteHeader; split <;> rfl

theorem WriteHeader_budget (w : ResponseWriter) (c : Nat) : (w.WriteHeader c).budget = w.budget := by
  unfold ResponseWriter.WriteHeader; split <;> rfl

theorem WriteHeader_isFlusher (w : ResponseWriter) (c : Nat) :
    (w.WriteHeader c).isFlusher = w.isFlusher := by
  unfold ResponseWriter.WriteHeader; split <;> rfl

theorem WriteHeader_committed_of_none (w : ResponseWriter) (c : Nat) (h : w.committed = none) :
    (w.WriteHeader c).committed = some (c, w.Header) := by
  unfold ResponseWriter.WriteHeader; rw [h]

theorem WriteHeader_of_committed (w : ResponseWriter) (c : Nat) (x : Nat × Header)
    (h : w.committed = some x) : w.WriteHeader c = w := by
  unfold ResponseWriter.WriteHeader; rw [h]

theorem Write_Header (w : ResponseWriter) (p : Bytes) : (w.Write p).1.Header = w.Header := by
  unfold ResponseWriter.Write
  simp only
  split
  · simp [WriteHeader_Header]
  · split <;> simp [WriteHeader_Header]

theorem Write_isFlusher (w : ResponseWriter) (p : Bytes) : (w.Write p).1.isFlusher = w.isFlusher := by
  unfold ResponseWriter.Write
  simp only
  split
  · simp [WriteHeader_isFlusher]
  · split <;> simp [WriteHeader_isFlusher]

theorem Write_committed (w : ResponseWriter) (p : Bytes) (x : Nat × Header)
    (h : w.committed = some x) : (w.Write p).1.committed = some x := by
  unfold ResponseWriter.Write
  rw [WriteHeader_of_committed w _ x h]
  simp only
  split
  · simpa using h
  · split <;> simpa using h

theorem Write_committed_of_none (w : ResponseWriter) (p : Bytes) (h : w.committed = none) :
    (w.Write p).1.committed = some (StatusOK, w.Header) := by
  have hc := WriteHeader_committed_of_none w StatusOK h
  unfold ResponseWriter.Write
  simp only
  split
  · simpa using hc
  · split <;> simpa using hc

theorem Error_Header (w : ResponseWriter) (msg : String) (c : Nat) :
    (Error w msg c).Header =
      (((w.Header.Del "Content-Length").Set "Content-Type" "text/plain; charset=utf-8").Set
        "X-Content-Type-Options" "nosniff") := by
  simp [Error, Write_Header, WriteHeader_Header]

theorem Error_committed (w : ResponseWriter) (msg : String) (c : Nat) (h : w.committed = none) :
    (Error w msg c).committed = some (c, (Error w msg c).Header) := by
  rw [Error_Header]
  unfold Error
  simp only
  rw [Write_committed _ _ (c, _) (WriteHeader_committed_of_none _ c (by simpa using h))]

/-! ## `io.Copy` lemmas -/

theorem ioCopy_invariant {W : Type} (write : W → Bytes → W × Nat × Option String)
    (P : W → Prop) (hP : ∀ d p, P d → P (write d p).1) (er : Option String)
    (chunks : List Bytes) : ∀ (dst : W) (n : Nat), P dst → P (ioCopy write er dst chunks n).1 := by
  induction chunks with
  | nil => intro dst n h; simpa [ioCopy] using h
  | cons p rest ih =>
    intro dst n h
    unfold ioCopy
    simp only
    repeat' split
    all_goals first
      | exact hP dst p h
      | exact ih _ _ (hP dst p h)
      | exact ih _ _ h

theorem ioCopy_sim {W1 W2 : Type} (wr1 : W1 → Bytes → W1 × Nat × Option String)
    (wr2 : W2 → Bytes → W2 × Nat × Option String) (R : W1 → W2 → Prop)
    (hR : ∀ a b p, R a b → R (wr1 a p).1 (wr2 b p).1 ∧ (wr1 a p).2 = (wr2 b p).2)
    (er : Option String) (chunks : List Bytes) :
    ∀ (a : W1) (b : W2) (n : Nat), R a b →
      R (ioCopy wr1 er a chunks n).1 (ioCopy wr2 er b chunks n).1 ∧
        (ioCopy wr1 er a chunks n).2 = (ioCopy wr2 er b chunks n).2 := by
  induction chunks with
  | nil => intro a b n h; simpa [ioCopy] using h
  | cons p rest ih =>
    intro a b n h
    obtain ⟨h1, h2⟩ := hR a b p h
    unfold ioCopy
    simp only [h2]
    repeat' split
    all_goals first
      | exact ⟨h1, rfl⟩
      | exact ih _ _ _ h1
      | exact ih _ _ _ h

theorem Write_sameClient (a b : ResponseWriter) (p : Bytes) (h : sameClient a b) :
    sameClient (a.Write p).1 (b.Write p).1 ∧ (a.Write p).2 = (b.Write p).2 := by
  obtain ⟨hH, hc, hb, hbud⟩ := h
  obtain ⟨aH, ac, ab, af, abud, afl⟩ := a
  obtain ⟨bH, bc, bb, bf, bbud, bfl⟩ := b
  simp only at hH hc hb hbud
  subst hH hc hb hbud
  unfold ResponseWriter.Write ResponseWriter.WriteHeader sameClient
  cases ac <;> cases abud <;> simp <;> split <;> simp

theorem Flush_sameClient (a : ResponseWriter) (x : Nat × Header) (h : a.committed = some x) :
    sameClient a.Flush a := by
  unfold ResponseWriter.Flush
  rw [WriteHeader_of_committed a _ x h]
  simp [sameClient]

theorem flushWriter_Write_sameClient (fw : flushWriter) (p : Bytes) :
    sameClient (fw.Write p).1.ResponseWriter (fw.ResponseWriter.Write p).1 ∧
      (fw.Write p).2 = (fw.ResponseWriter.Write p).2 := by
  unfold flushWriter.Write
  refine ⟨?_, rfl⟩
  simp only
  split
  · cases hc : fw.ResponseWriter.committed with
    | none => exact Flush_sameClient _ _ (Write_committed_of_none _ p hc)
    | some x => exact Flush_sameClient _ _ (Write_committed _ p x hc)
  · simp [sameClient]

theorem Write_of_accepts (w : ResponseWriter) (p : Bytes) (m : Nat)
    (h : w.accepts (p.length + m)) :
    (w.Write p).1.body = w.body ++ p ∧ (w.Write p).2 = (p.length, none) ∧
      (w.Write p).1.accepts m := by
  unfold ResponseWriter.accepts at h ⊢
  unfold ResponseWriter.Write
  simp only [WriteHeader_budget, WriteHeader_body]
  cases hb : w.budget with
  | none => simp
  | some b =>
    have hle := h b hb
    have hp : p.length ≤ b := by omega
    simp only [hp, if_true, true_and]
    intro b2 hb2
    simp only [Option.some.injEq] at hb2
    omega

theorem ioCopy_Write_body (er : Option String) (chunks : List Bytes) :
    ∀ (w : ResponseWriter) (n : Nat), w.accepts chunks.flatten.length →
      (ioCopy ResponseWriter.Write er w chunks n).1.body = w.body ++ chunks.flatten ∧
        (ioCopy ResponseWriter.Write er w chunks n).2 = (n + chunks.flatten.length, er) := by
  induction chunks with
  | nil => intro w n _; simp [ioCopy]
  | cons p rest ih =>
    intro w n h
    rw [List.flatten_cons, List.length_append] at h
    obtain ⟨h1, h2, h3⟩ := Write_of_accepts w p _ h
    obtain ⟨i1, i2⟩ := ih (w.Write p).1 (n + p.length) h3
    unfold ioCopy
    by_cases hp : 0 < p.length
    · simp only [hp, if_true, h2, lt_self_iff_false, decide_False, Bool.false_and,
        Bool.false_eq_true, if_false, ne_eq, not_true_eq_false]
      rw [i1, i2, h1]
      simp [Nat.add_assoc]
    · have hnil : p = [] := by
        cases p with
        | nil => rfl
        | cons _ _ => simp at hp
      subst hnil
      obtain ⟨j1, j2⟩ := ih w n (by simpa using h)
      simp only [List.length_nil, lt_self_iff_false, if_false]
      rw [j1, j2]
      simp

theorem calls_of_forwards (env : Env) (w : ResponseWriter) (r : Request) (h : forwards env r) :
    (proxyHandler env w r).calls = [forwardedRequest env r] := by
  obtain ⟨hm, hb, hp, hk⟩ := h
  unfold proxyHandler NewRequestWithContext
  simp only [hm, hb, hp, hk, if_false]
  split
  · rfl
  · rw [apply_ite Result.calls, ite_self]
    rfl

theorem forwards_of_mem_calls (env : Env) (w : ResponseWriter) (r : Request) (q : UpstreamRequest)
    (h : q ∈ (proxyHandler env w r).calls) : forwards env r ∧ q = forwardedRequest env r := by
  by_cases hf : forwards env r
  · rw [calls_of_forwards env w r hf] at h
    exact ⟨hf, by simpa using h⟩
  · exfalso
    unfold forwards at hf
    unfold proxyHandler NewRequestWithContext at h
    by_cases hm : r.Method = MethodOptions
    · simp [hm] at h
    · by_cases hb : r.Header.Get enclaveURLHeader = ""
      · simp [hm, hb] at h
      · cases hp : env.urlParseErr (r.Header.Get enclaveURLHeader ++ r.Path) with
        | some e => simp [hm, hb, hp] at h
        | none =>
          by_cases hk : env.Getenv "TINFOIL_API_KEY" = ""
          · simp [hm, hb, hp, hk] at h
          · exact hf ⟨hm, hb, hp, hk⟩

theorem proxyHandler_options (env : Env) (w : ResponseWriter) (r : Request)
    (hm : r.Method = MethodOptions) :
    proxyHandler env w r =
      { w := ResponseWriter.WriteHeader { w with Header := corsHeader w.Header } StatusNoContent,
        calls := [] } := by
  unfold proxyHandler
  simp only [hm, if_true]
  rfl

theorem proxyHandler_no_target (env : Env) (w : ResponseWriter) (r : Request)
    (hm : r.Method ≠ MethodOptions) (hb : r.Header.Get enclaveURLHeader = "") :
    proxyHandler env w r =
      { w := Error { w with Header := corsHeader w.Header }
          "X-Tinfoil-Enclave-Url header required" StatusBadRequest,
        calls := [] } := by
  unfold proxyHandler
  simp only [hm, hb, if_true, if_false]
  rfl

theorem proxyHandler_bad_url (env : Env) (w : ResponseWriter) (r : Request) (e : String)
    (hm : r.Method ≠ MethodOptions) (hb : r.Header.Get enclaveURLHeader ≠ "")
    (hp : env.urlParseErr (r.Header.Get enclaveURLHeader ++ r.Path) = some e) :
    proxyHandler env w r =
      { w := Error { w with Header := corsHeader w.Header } e StatusInternalServerError,
        calls := [] } := by
  unfold proxyHandler NewRequestWithContext
  simp only [hm, hb, hp, if_false]
  rfl

theorem proxyHandler_no_key (env : Env) (w : ResponseWriter) (r : Request)
    (hm : r.Method ≠ MethodOptions) (hb : r.Header.Get enclaveURLHeader ≠ "")
    (hp : env.urlParseErr (r.Header.Get enclaveURLHeader ++ r.Path) = none)
    (hk : env.Getenv "TINFOIL_API_KEY" = "") :
    proxyHandler env w r =
      { w := Error { w with Header := corsHeader w.Header }
          "TINFOIL_API_KEY not set" StatusInternalServerError,
        calls := [] } := by
  unfold proxyHandler NewRequestWithContext
  simp only [hm, hb, hp, hk, if_true, if_false]
  rfl

theorem proxyHandler_unreachable (env : Env) (w : ResponseWriter) (r : Request) (e : String)
    (hf : forwards env r) (hdo : env.Do (forwardedRequest env r) = .error e) :
    proxyHandler env w r =
      { w := Error { w with Header := corsHeader w.Header } e StatusBadGateway,
        calls := [forwardedRequest env r] } := by
  obtain ⟨hm, hb, hp, hk⟩ := hf
  unfold forwardedRequest forwardedHeader at hdo
  unfold proxyHandler NewRequestWithContext
  simp only [hm, hb, hp, hk, if_false, hdo]
  rfl

theorem proxyHandler_success (env : Env) (w : ResponseWriter) (r : Request) (resp : Response)
    (hf : forwards env r) (hdo : env.Do (forwardedRequest env r) = .ok resp) :
    proxyHandler env w r =
      if w.isFlusher then
        { w := (Copy flushWriter.Write
                  { ResponseWriter := committedWriter w resp, Flusher := true }
                  resp.Body).1.ResponseWriter,
          calls := [forwardedRequest env r] }
      else
        { w := (Copy ResponseWriter.Write (committedWriter w resp) resp.Body).1,
          calls := [forwardedRequest env r] } := by
  obtain ⟨hm, hb, hp, hk⟩ := hf
  unfold forwardedRequest forwardedHeader at hdo
  unfold proxyHandler NewRequestWithContext
  simp only [hm, hb, hp, hk, if_false, hdo, WriteHeader_isFlusher]
  rfl

/-! ## Canonical form of the header names used by the handler -/

@[simp]
theorem canon_enclave : CanonicalMIMEHeaderKey enclaveURLHeader = "X-Tinfoil-Enclave-Url" := by decide
@[simp]
theorem canon_enclave_lit :
    CanonicalMIMEHeaderKey "X-Tinfoil-Enclave-Url" = "X-Tinfoil-Enclave-Url" := by decide
@[simp]
theorem canon_accept : CanonicalMIMEHeaderKey "Accept" = "Accept" := by decide
@[simp]
theorem canon_authorization : CanonicalMIMEHeaderKey "Authorization" = "Authorization" := by
  decide
@[simp]
theorem canon_content_type : CanonicalMIMEHeaderKey "Content-Type" = "Content-Type" := by
  decide
@[simp]
theorem canon_content_length :
    CanonicalMIMEHeaderKey "Content-Length" = "Content-Length" := by decide
@[simp]
theorem canon_nosniff :
    CanonicalMIMEHeaderKey "X-Content-Type-Options" = "X-Content-Type-Options" := by decide
@[simp]
theorem canon_transfer_encoding :
    CanonicalMIMEHeaderKey "Transfer-Encoding" = "Transfer-Encoding" := by decide
@[simp]
theorem canon_encapsulated_key :
    CanonicalMIMEHeaderKey "Ehbp-Encapsulated-Key" = "Ehbp-Encapsulated-Key" := by decide
@[simp]
theorem canon_response_nonce :
    CanonicalMIMEHeaderKey "Ehbp-Response-Nonce" = "Ehbp-Response-Nonce" := by decide
@[simp]
theorem canon_fallback : CanonicalMIMEHeaderKey "Ehbp-Fallback" = "Ehbp-Fallback" := by
  decide
@[simp]
theorem canon_custom_response :
    CanonicalMIMEHeaderKey "Your-Custom-Response-Header" = "Your-Custom-Response-Header" := by
  decide
@[simp]
theorem canon_allow_origin :
    CanonicalMIMEHeaderKey "Access-Control-Allow-Origin" = "Access-Control-Allow-Origin" := by
  decide
@[simp]
theorem canon_allow_methods :
    CanonicalMIMEHeaderKey "Access-Control-Allow-Methods" = "Access-Control-Allow-Methods" := by
  decide
@[simp]
theorem canon_allow_headers :
    CanonicalMIMEHeaderKey "Access-Control-Allow-Headers" = "Access-Control-Allow-Headers" := by
  decide
@[simp]
theorem canon_expose_headers :
    CanonicalMIMEHeaderKey "Access-Control-Expose-Headers" = "Access-Control-Expose-Headers" := by
  decide

theorem values_forwardedHeader (apiKey : String) (h : Header) (k : String) :
    (forwardedHeader apiKey h).values k =
      if k = "Ehbp-Encapsulated-Key" ∧ h.Get "Ehbp-Encapsulated-Key" ≠ "" then
        some [h.Get "Ehbp-Encapsulated-Key"]
      else if k = "Authorization" then some ["Bearer " ++ apiKey]
      else if k = "Accept" ∧ h.Get "Accept" ≠ "" then some [h.Get "Accept"]
      else if k = "Content-Type" then some ["application/json"]
      else none := by
  unfold forwardedHeader copyHeaders ehbpRequestHeaders
  simp only [List.foldl_cons, List.foldl_nil]
  have hnil : Header.values [] k = none := rfl
  by_cases he : h.Get "Ehbp-Encapsulated-Key" = "" <;> by_cases ha : h.Get "Accept" = "" <;>
    simp only [he, ha, values_Set, hnil, canon_encapsulated_key, canon_authorization,
      canon_accept, canon_content_type, ne_eq, not_true_eq_false, not_false_eq_true, if_true,
      if_false, and_true, and_false]

theorem authorization_copyHeaders (dst src : Header) :
    (copyHeaders dst src ehbpRequestHeaders).values "Authorization" = dst.values "Authorization" := by
  apply values_copyHeaders_of_not_mem
  intro key hkey
  simp only [ehbpRequestHeaders, List.mem_singleton] at hkey
  subst hkey
  simp

theorem Get_eq_empty_of_absent_or_empty (h : Header) (k : String)
    (hk : CanonicalMIMEHeaderKey k = k)
    (hv : h.values k = none ∨ ∃ rest, h.values k = some ("" :: rest)) : h.Get k = "" := by
  unfold Header.Get
  rw [hk]
  rcases hv with hv | ⟨rest, hv⟩ <;> rw [hv]

theorem Error_status (w : ResponseWriter) (msg : String) (c : Nat) (h : w.committed = none) :
    (Error w msg c).status = some c := by
  unfold ResponseWriter.status
  rw [Error_committed w msg c h]
  rfl

/-! ## Claims -/

/-- C1: for every non-OPTIONS request with a non-empty `X-Tinfoil-Enclave-Url`
and a non-empty `TINFOIL_API_KEY` secret `s`, the handler forwards (exactly one
upstream call whenever the target parses), every request it hands to the
upstream carries `Authorization` with the single value `"Bearer " ++ s`, the
same holds for a run on any other client header set, and `copyHeaders` over
`ehbpRequestHeaders` leaves `Authorization` untouched. -/
theorem upstream_authorization_is_server_credential (env : Env) (w : ResponseWriter)
    (r : Request) (hm : r.Method ≠ MethodOptions) (hb : r.Header.Get enclaveURLHeader ≠ "")
    (hk : env.Getenv "TINFOIL_API_KEY" ≠ "") :
    (env.urlParseErr (r.Header.Get enclaveURLHeader ++ r.Path) = none →
        ∃ q, (proxyHandler env w r).calls = [q]) ∧
      (∀ q ∈ (proxyHandler env w r).calls,
        q.Header.values "Authorization" = some ["Bearer " ++ env.Getenv "TINFOIL_API_KEY"]) ∧
      (∀ (w2 : ResponseWriter) (h2 : Header),
        ∀ q2 ∈ (proxyHandler env w2 { r with Header := h2 }).calls,
          q2.Header.values "Authorization" = some ["Bearer " ++ env.Getenv "TINFOIL_API_KEY"]) ∧
      (∀ dst src : Header,
        (copyHeaders dst src ehbpRequestHeaders).values "Authorization" =
          dst.values "Authorization") := by
  have key : ∀ (w1 : ResponseWriter) (r1 : Request), ∀ q ∈ (proxyHandler env w1 r1).calls,
      q.Header.values "Authorization" = some ["Bearer " ++ env.Getenv "TINFOIL_API_KEY"] := by
    intro w1 r1 q hq
    obtain ⟨_, rfl⟩ := forwards_of_mem_calls env w1 r1 q hq
    simp [forwardedRequest, values_forwardedHeader]
  refine ⟨fun hp => ⟨_, calls_of_forwards env w r ⟨hm, hb, hp, hk⟩⟩, key w r, ?_,
    authorization_copyHeaders⟩
  intro w2 h2
  exact key w2 _

theorem upstream_authorization_is_server_credential_witness :
    exampleRequest.Method ≠ MethodOptions ∧
      exampleRequest.Header.Get enclaveURLHeader ≠ "" ∧
      exampleEnv.Getenv "TINFOIL_API_KEY" ≠ "" ∧
      exampleRequest.Header.values "Authorization" = some ["Bearer client"] ∧
      exampleUpstreamRequest ∈ (proxyHandler exampleEnv exampleWriter exampleRequest).calls ∧
      exampleUpstreamRequest.Header.values "Authorization" =
        some ["Bearer " ++ exampleEnv.Getenv "TINFOIL_API_KEY"] :=
  ⟨by decide, by decide, by decide, by decide, by decide,
    (upstream_authorization_is_server_credential exampleEnv exampleWriter exampleRequest
      (by decide) (by decide) (by decide)).2.1 exampleUpstreamRequest (by decide)⟩

/-- C2: for every non-OPTIONS request whose `X-Tinfoil-Enclave-Url` header is
absent or has the empty string as its first value, the handler answers 400
and makes no upstream call, whatever the environment, the other headers and
the body are. -/
theorem missing_target_is_400 (env : Env) (w : ResponseWriter) (r : Request)
    (hw : w.committed = none) (hm : r.Method ≠ MethodOptions)
    (hb : r.Header.values enclaveURLHeader = none ∨
      ∃ rest, r.Header.values enclaveURLHeader = some ("" :: rest)) :
    (proxyHandler env w r).w.status = some StatusBadRequest ∧
      (proxyHandler env w r).calls = [] := by
  have hg := Get_eq_empty_of_absent_or_empty r.Header enclaveURLHeader (by decide) hb
  rw [proxyHandler_no_target env w r hm hg]
  exact ⟨Error_status _ _ _ (by simpa using hw), rfl⟩

theorem missing_target_is_400_witness :
    exampleWriter.committed = none ∧ exampleRequest.Method ≠ MethodOptions ∧
      (proxyHandler exampleEnv exampleWriter { exampleRequest with Header := [] }).w.status =
        some 400 ∧
      (proxyHandler exampleEnv exampleWriter { exampleRequest with Header := [] }).calls = [] :=
  ⟨rfl, by decide,
    missing_target_is_400 exampleEnv exampleWriter { exampleRequest with Header := [] } rfl
      (by decide) (Or.inl rfl)⟩

/-- C3: for every non-OPTIONS request with a non-empty `X-Tinfoil-Enclave-Url`
header, when `TINFOIL_API_KEY` reads as the empty string the handler answers
500 and makes no upstream call. -/
theorem missing_credential_is_500 (env : Env) (w : ResponseWriter) (r : Request)
    (hw : w.committed = none) (hm : r.Method ≠ MethodOptions)
    (hb : r.Header.Get enclaveURLHeader ≠ "") (hk : env.Getenv "TINFOIL_API_KEY" = "") :
    (proxyHandler env w r).w.status = some StatusInternalServerError ∧
      (proxyHandler env w r).calls = [] := by
  cases hp : env.urlParseErr (r.Header.Get enclaveURLHeader ++ r.Path) with
  | some e =>
    rw [proxyHandler_bad_url env w r e hm hb hp]
    exact ⟨Error_status _ _ _ (by simpa using hw), rfl⟩
  | none =>
    rw [proxyHandler_no_key env w r hm hb hp hk]
    exact ⟨Error_status _ _ _ (by simpa using hw), rfl⟩

theorem missing_credential_is_500_witness :
    exampleWriter.committed = none ∧ exampleRequest.Method ≠ MethodOptions ∧
      exampleRequest.Header.Get enclaveURLHeader ≠ "" ∧ noKeyEnv.Getenv "TINFOIL_API_KEY" = "" ∧
      (proxyHandler noKeyEnv exampleWriter exampleRequest).w.status = some 500 ∧
      (proxyHandler noKeyEnv exampleWriter exampleRequest).calls = [] :=
  ⟨rfl, by decide, by decide, rfl,
    missing_credential_is_500 noKeyEnv exampleWriter exampleRequest rfl (by decide) (by decide)
      rfl⟩

/-- C6: for every inbound method other than OPTIONS, every non-empty upstream
base `B` read from `X-Tinfoil-Enclave-Url` and every path `P`, every request
the handler hands to the upstream has method POST and target exactly
`B ++ P`; such a request is issued whenever `B ++ P` parses and the
credential is set. -/
theorem upstream_target_is_concatenation (env : Env) (w : ResponseWriter) (r : Request)
    (B : String) (hm : r.Method ≠ MethodOptions) (hb : r.Header.Get enclaveURLHeader = B)
    (hB : B ≠ "") :
    (env.urlParseErr (B ++ r.Path) = none → env.Getenv "TINFOIL_API_KEY" ≠ "" →
        ∃ q, (proxyHandler env w r).calls = [q] ∧ q.Method = "POST" ∧ q.URL = B ++ r.Path) ∧
      (∀ q ∈ (proxyHandler env w r).calls, q.Method = "POST" ∧ q.URL = B ++ r.Path) := by
  subst hb
  refine ⟨fun hp hk => ⟨_, calls_of_forwards env w r ⟨hm, hB, hp, hk⟩, rfl, rfl⟩, ?_⟩
  intro q hq
  obtain ⟨_, rfl⟩ := forwards_of_mem_calls env w r q hq
  exact ⟨rfl, rfl⟩

theorem upstream_target_is_concatenation_witness :
    exampleRequest.Method ≠ MethodOptions ∧
      exampleRequest.Header.Get enclaveURLHeader = "https://h" ∧ "https://h" ≠ "" ∧
      ∃ q, (proxyHandler exampleEnv exampleWriter exampleRequest).calls = [q] ∧
        q.Method = "POST" ∧ q.URL = "https://h" ++ "/v1/chat/completions" :=
  ⟨by decide, by decide, by decide,
    (upstream_target_is_concatenation exampleEnv exampleWriter exampleRequest "https://h"
      (by decide) (by decide) (by decide)).1 rfl (by decide)⟩

theorem Get_of_values_eq (h1 h2 : Header) (k : String)
    (h : h1.values (CanonicalMIMEHeaderKey k) = h2.values (CanonicalMIMEHeaderKey k)) :
    h1.Get k = h2.Get k := by
  unfold Header.Get
  rw [h]

theorem forwardedHeader_congr (apiKey : String) (h1 h2 : Header)
    (ha : h1.Get "Accept" = h2.Get "Accept")
    (he : h1.Get "Ehbp-Encapsulated-Key" = h2.Get "Ehbp-Encapsulated-Key") :
    forwardedHeader apiKey h1 = forwardedHeader apiKey h2 := by
  unfold forwardedHeader copyHeaders ehbpRequestHeaders
  simp only [List.foldl_cons, List.foldl_nil, ha, he]

/-- C8: for every forwarded request, every header name on the upstream
request is one of `Content-Type`, `Accept`, `Authorization` and
`Ehbp-Encapsulated-Key`; `Your-Custom-Request-Header` and
`X-Tinfoil-Enclave-Url` are not on it; and a second forwarded request whose
`Accept` and `Ehbp-Encapsulated-Key` entries equal those of the first yields
the same upstream header map. -/
theorem upstream_headers_are_curated (env : Env) (w : ResponseWriter) (r : Request)
    (q : UpstreamRequest) (hq : q ∈ (proxyHandler env w r).calls) :
    (∀ k, q.Header.values k ≠ none →
        k ∈ ["Content-Type", "Accept", "Authorization", "Ehbp-Encapsulated-Key"]) ∧
      q.Header.values "Your-Custom-Request-Header" = none ∧
      q.Header.values enclaveURLHeader = none ∧
      (∀ (w2 : ResponseWriter) (r2 : Request),
        r2.Header.values "Accept" = r.Header.values "Accept" →
        r2.Header.values "Ehbp-Encapsulated-Key" = r.Header.values "Ehbp-Encapsulated-Key" →
        ∀ q2 ∈ (proxyHandler env w2 r2).calls, q2.Header = q.Header) := by
  obtain ⟨_, rfl⟩ := forwards_of_mem_calls env w r q hq
  have hsub : ∀ k, (forwardedRequest env r).Header.values k ≠ none →
      k ∈ ["Content-Type", "Accept", "Authorization", "Ehbp-Encapsulated-Key"] := by
    intro k hk
    by_contra hmem
    simp only [List.mem_cons, List.mem_singleton, List.not_mem_nil, or_false, not_or] at hmem
    obtain ⟨h1, h2, h3, h4⟩ := hmem
    apply hk
    simp [forwardedRequest, values_forwardedHeader, h1, h2, h3, h4]
  refine ⟨hsub, ?_, ?_, ?_⟩
  · by_contra hne
    have := hsub _ hne
    revert this
    decide
  · by_contra hne
    have := hsub _ hne
    revert this
    decide
  · intro w2 r2 ha he q2 hq2
    obtain ⟨_, rfl⟩ := forwards_of_mem_calls env w2 r2 q2 hq2
    simp only [forwardedRequest]
    apply forwardedHeader_congr
    · exact Get_of_values_eq _ _ _ (by simpa using ha)
    · exact Get_of_values_eq _ _ _ (by simpa using he)

theorem upstream_headers_are_curated_witness :
    exampleUpstreamRequest ∈
        (proxyHandler exampleEnv exampleWriter exampleRequest).calls ∧
      exampleUpstreamRequest.Header.values "Your-Custom-Request-Header" = none :=
  ⟨by decide,
    (upstream_headers_are_curated exampleEnv exampleWriter exampleRequest
      exampleUpstreamRequest (by decide)).2.1⟩

theorem Copy_Write_Header_committed (w : ResponseWriter) (b : Body) (x : Nat × Header)
    (hc : w.committed = some x) :
    (Copy ResponseWriter.Write w b).1.Header = w.Header ∧
      (Copy ResponseWriter.Write w b).1.committed = some x := by
  unfold Copy
  apply ioCopy_invariant ResponseWriter.Write
    (fun d => d.Header = w.Header ∧ d.committed = some x)
  · intro d p hd
    exact ⟨by rw [Write_Header, hd.1], Write_committed d p x hd.2⟩
  · exact ⟨rfl, hc⟩

theorem Copy_flush_sameClient (w : ResponseWriter) (b : Body) (f : Bool) :
    sameClient (Copy flushWriter.Write { ResponseWriter := w, Flusher := f } b).1.ResponseWriter
      (Copy ResponseWriter.Write w b).1 := by
  unfold Copy
  refine (ioCopy_sim flushWriter.Write ResponseWriter.Write
    (fun fw d => sameClient fw.ResponseWriter d) ?_ b.err b.chunks _ _ 0 ?_).1
  · intro fw d p hR
    obtain ⟨h1, h2⟩ := flushWriter_Write_sameClient fw p
    obtain ⟨h3, h4⟩ := Write_sameClient fw.ResponseWriter d p hR
    refine ⟨?_, h2.trans h4⟩
    exact ⟨h1.1.trans h3.1, h1.2.1.trans h3.2.1, h1.2.2.1.trans h3.2.2.1,
      h1.2.2.2.trans h3.2.2.2⟩
  · exact ⟨rfl, rfl, rfl, rfl⟩

theorem success_sameClient (env : Env) (w : ResponseWriter) (r : Request) (resp : Response)
    (hf : forwards env r) (hdo : env.Do (forwardedRequest env r) = .ok resp) :
    sameClient (proxyHandler env w r).w
      (Copy ResponseWriter.Write (committedWriter w resp) resp.Body).1 := by
  rw [proxyHandler_success env w r resp hf hdo]
  cases w.isFlusher with
  | true => exact Copy_flush_sameClient _ _ _
  | false => exact ⟨rfl, rfl, rfl, rfl⟩

theorem committedWriter_committed (w : ResponseWriter) (resp : Response)
    (hw : w.committed = none) :
    (committedWriter w resp).committed = some (resp.StatusCode, clientHeader w.Header resp) := by
  unfold committedWriter
  rw [WriteHeader_committed_of_none _ _ (by simpa using hw)]

theorem committedWriter_Header (w : ResponseWriter) (resp : Response) :
    (committedWriter w resp).Header = clientHeader w.Header resp := by
  unfold committedWriter
  rw [WriteHeader_Header]

theorem success_writer (env : Env) (w : ResponseWriter) (r : Request) (resp : Response)
    (hf : forwards env r) (hdo : env.Do (forwardedRequest env r) = .ok resp)
    (hw : w.committed = none) :
    (proxyHandler env w r).w.Header = clientHeader w.Header resp ∧
      (proxyHandler env w r).w.committed = some (resp.StatusCode, clientHeader w.Header resp) ∧
      (proxyHandler env w r).w.body =
        (Copy ResponseWriter.Write (committedWriter w resp) resp.Body).1.body := by
  obtain ⟨h1, h2, h3, _⟩ := success_sameClient env w r resp hf hdo
  obtain ⟨c1, c2⟩ := Copy_Write_Header_committed (committedWriter w resp) resp.Body _
    (committedWriter_committed w resp hw)
  exact ⟨by rw [h1, c1, committedWriter_Header], by rw [h2, c2], h3⟩

theorem values_corsHeader (h : Header) (k : String) :
    (corsHeader h).values k =
      if k = "Access-Control-Expose-Headers" then some [exposeHeaders]
      else if k = "Access-Control-Allow-Headers" then some [allowHeaders]
      else if k = "Access-Control-Allow-Methods" then some ["POST, OPTIONS"]
      else if k = "Access-Control-Allow-Origin" then some ["*"]
      else h.values k := by
  unfold corsHeader
  simp only [values_Set, canon_allow_origin, canon_allow_methods, canon_allow_headers,
    canon_expose_headers]

theorem values_clientHeader (h : Header) (resp : Response) (k : String) :
    (clientHeader h resp).values k =
      if resp.Header.Get "Transfer-Encoding" ≠ "" ∧ k = "Content-Length" then none
      else if resp.Header.Get "Transfer-Encoding" ≠ "" ∧ k = "Transfer-Encoding" then
        some [resp.Header.Get "Transfer-Encoding"]
      else if k = "Your-Custom-Response-Header" then some ["response-value"]
      else if resp.Header.Get "Content-Type" ≠ "" ∧ k = "Content-Type" then
        some [resp.Header.Get "Content-Type"]
      else if resp.Header.Get "Ehbp-Fallback" ≠ "" ∧ k = "Ehbp-Fallback" then
        some [resp.Header.Get "Ehbp-Fallback"]
      else if resp.Header.Get "Ehbp-Response-Nonce" ≠ "" ∧ k = "Ehbp-Response-Nonce" then
        some [resp.Header.Get "Ehbp-Response-Nonce"]
      else (corsHeader h).values k := by
  unfold clientHeader copyHeaders ehbpResponseHeaders
  simp only [List.foldl_cons, List.foldl_nil]
  by_cases hte : resp.Header.Get "Transfer-Encoding" = "" <;>
    by_cases hct : resp.Header.Get "Content-Type" = "" <;>
    by_cases hfb : resp.Header.Get "Ehbp-Fallback" = "" <;>
    by_cases hn : resp.Header.Get "Ehbp-Response-Nonce" = "" <;>
    simp only [hte, hct, hfb, hn, values_Set, values_Del, canon_content_length,
      canon_transfer_encoding, canon_custom_response, canon_content_type, canon_fallback,
      canon_response_nonce, ne_eq, not_true_eq_false, not_false_eq_true, if_true, if_false,
      true_and, false_and]

theorem Get_of_values_cons (h : Header) (k v : String) (rest : List String)
    (hk : CanonicalMIMEHeaderKey k = k) (hv : h.values k = some (v :: rest)) : h.Get k = v := by
  unfold Header.Get
  rw [hk, hv]

/-- C4 as stated fails: the inbound request carries `Ehbp-Encapsulated-Key`
with the value `""`, it is forwarded, and the upstream request does not
carry the header. -/
theorem request_header_empty_value_dropped :
    "Ehbp-Encapsulated-Key" ∈ ehbpRequestHeaders ∧
      emptyKeyRequest.Header.values "Ehbp-Encapsulated-Key" = some [""] ∧
      (proxyHandler exampleEnv exampleWriter emptyKeyRequest).calls = [emptyKeyUpstreamRequest] ∧
      emptyKeyUpstreamRequest.Header.values "Ehbp-Encapsulated-Key" = none ∧
      emptyKeyUpstreamRequest.Header.values "Ehbp-Encapsulated-Key" ≠ some [""] :=
  ⟨by decide, by decide, by decide, by decide, by decide⟩

/-- C4 amended: for every forwarded request and every name in
`ehbpRequestHeaders`, an inbound header whose first value `v` is non-empty
reaches the upstream request with the single value `v`; a header that is
absent inbound, or whose first value is empty, is not on the upstream
request. -/
theorem request_protocol_header_forwarded (env : Env) (w : ResponseWriter) (r : Request)
    (q : UpstreamRequest) (k : String) (hq : q ∈ (proxyHandler env w r).calls)
    (hk : k ∈ ehbpRequestHeaders) :
    (∀ v rest, r.Header.values k = some (v :: rest) → v ≠ "" →
        q.Header.values k = some [v]) ∧
      (r.Header.values k = none → q.Header.values k = none) ∧
      (∀ rest, r.Header.values k = some ("" :: rest) → q.Header.values k = none) := by
  obtain ⟨_, rfl⟩ := forwards_of_mem_calls env w r q hq
  simp only [ehbpRequestHeaders, List.mem_singleton] at hk
  subst hk
  refine ⟨?_, ?_, ?_⟩
  · intro v rest hv hne
    have hg := Get_of_values_cons r.Header _ v rest canon_encapsulated_key hv
    simp [forwardedRequest, values_forwardedHeader, hg, hne]
  · intro hv
    have hg := Get_eq_empty_of_absent_or_empty r.Header _ canon_encapsulated_key (Or.inl hv)
    simp [forwardedRequest, values_forwardedHeader, hg]
  · intro rest hv
    have hg := Get_eq_empty_of_absent_or_empty r.Header _ canon_encapsulated_key
      (Or.inr ⟨rest, hv⟩)
    simp [forwardedRequest, values_forwardedHeader, hg]

theorem request_protocol_header_forwarded_witness :
    exampleUpstreamRequest ∈
        (proxyHandler exampleEnv exampleWriter exampleRequest).calls ∧
      "Ehbp-Encapsulated-Key" ∈ ehbpRequestHeaders ∧
      exampleUpstreamRequest.Header.values "Ehbp-Encapsulated-Key" = some ["abc"] :=
  ⟨by decide, by decide,
    (request_protocol_header_forwarded exampleEnv exampleWriter exampleRequest
      exampleUpstreamRequest "Ehbp-Encapsulated-Key" (by decide) (by decide)).1
      "abc" [] (by decide) (by decide)⟩

/-- C5 as stated fails: the upstream response carries `Ehbp-Response-Nonce`
with the values `n1, n2`, and the client response carries it with the value
`n1` only. -/
theorem response_header_values_not_preserved :
    "Ehbp-Response-Nonce" ∈ ehbpResponseHeaders ∧
      (proxyHandler twoNonceEnv exampleWriter exampleRequest).calls = [exampleUpstreamRequest] ∧
      twoNonceEnv.Do exampleUpstreamRequest = .ok twoNonceResponse ∧
      twoNonceResponse.Header.values "Ehbp-Response-Nonce" = some ["n1", "n2"] ∧
      (proxyHandler twoNonceEnv exampleWriter exampleRequest).w.status = some 200 ∧
      (proxyHandler twoNonceEnv exampleWriter exampleRequest).w.sentHeader.values
        "Ehbp-Response-Nonce" = some ["n1"] ∧
      (proxyHandler twoNonceEnv exampleWriter exampleRequest).w.sentHeader.values
        "Ehbp-Response-Nonce" ≠ some ["n1", "n2"] :=
  ⟨by decide, by decide, rfl, by decide, by decide, by decide, by decide⟩

theorem sentHeader_of_committed (w : ResponseWriter) (c : Nat) (h : Header)
    (hc : w.committed = some (c, h)) : w.sentHeader = h ∧ w.status = some c := by
  unfold ResponseWriter.sentHeader ResponseWriter.status
  rw [hc]
  exact ⟨rfl, rfl⟩

/-- C5 amended: for every forwarded request whose upstream call succeeds and
every name in `ehbpResponseHeaders`, an upstream response header whose first
value `v` is non-empty is on the client response with the single value `v`;
a header that the upstream response does not carry, or carries with an empty
first value, is not on the client response. -/
theorem response_protocol_header_forwarded (env : Env) (w : ResponseWriter) (r : Request)
    (q : UpstreamRequest) (resp : Response) (k : String) (hw : w.committed = none)
    (hh : w.Header.values k = none) (hq : q ∈ (proxyHandler env w r).calls)
    (hdo : env.Do q = .ok resp) (hk : k ∈ ehbpResponseHeaders) :
    (∀ v rest, resp.Header.values k = some (v :: rest) → v ≠ "" →
        (proxyHandler env w r).w.sentHeader.values k = some [v] ∧
          (proxyHandler env w r).w.Header.values k = some [v]) ∧
      (resp.Header.values k = none →
        (proxyHandler env w r).w.sentHeader.values k = none ∧
          (proxyHandler env w r).w.Header.values k = none) ∧
      (∀ rest, resp.Header.values k = some ("" :: rest) →
        (proxyHandler env w r).w.sentHeader.values k = none ∧
          (proxyHandler env w r).w.Header.values k = none) := by
  obtain ⟨hf, rfl⟩ := forwards_of_mem_calls env w r q hq
  obtain ⟨h1, h2, _⟩ := success_writer env w r resp hf hdo hw
  obtain ⟨h3, _⟩ := sentHeader_of_committed _ _ _ h2
  rw [h3, h1]
  have hck : CanonicalMIMEHeaderKey k = k := by
    simp only [ehbpResponseHeaders, List.mem_cons, List.mem_singleton, List.not_mem_nil,
      or_false] at hk
    rcases hk with rfl | rfl <;> decide
  have hpos : ∀ v, resp.Header.Get k = v → v ≠ "" →
      (clientHeader w.Header resp).values k = some [v] := by
    intro v hg hne
    simp only [ehbpResponseHeaders, List.mem_cons, List.mem_singleton, List.not_mem_nil,
      or_false] at hk
    rcases hk with rfl | rfl
    · by_cases hfb : resp.Header.Get "Ehbp-Fallback" = "" <;>
        simp [values_clientHeader, hg, hne, hfb]
    · simp [values_clientHeader, hg, hne]
  have hneg : resp.Header.Get k = "" → (clientHeader w.Header resp).values k = none := by
    intro hg
    simp only [ehbpResponseHeaders, List.mem_cons, List.mem_singleton, List.not_mem_nil,
      or_false] at hk
    rcases hk with rfl | rfl
    · by_cases hfb : resp.Header.Get "Ehbp-Fallback" = "" <;>
        simp [values_clientHeader, values_corsHeader, hg, hfb, hh]
    · simp [values_clientHeader, values_corsHeader, hg, hh]
  refine ⟨?_, ?_, ?_⟩
  · intro v rest hv hne
    have := hpos v (Get_of_values_cons _ _ v rest hck hv) hne
    exact ⟨this, this⟩
  · intro hv
    have := hneg (Get_eq_empty_of_absent_or_empty _ _ hck (Or.inl hv))
    exact ⟨this, this⟩
  · intro rest hv
    have := hneg (Get_eq_empty_of_absent_or_empty _ _ hck (Or.inr ⟨rest, hv⟩))
    exact ⟨this, this⟩

theorem response_protocol_header_forwarded_witness :
    exampleWriter.committed = none ∧
      exampleWriter.Header.values "Ehbp-Response-Nonce" = none ∧
      "Ehbp-Response-Nonce" ∈ ehbpResponseHeaders ∧
      (proxyHandler exampleEnv exampleWriter exampleRequest).w.sentHeader.values
        "Ehbp-Response-Nonce" = some ["n1"] ∧
      (proxyHandler exampleEnv exampleWriter exampleRequest).w.Header.values
        "Ehbp-Response-Nonce" = some ["n1"] :=
  ⟨rfl, rfl, by decide,
    (response_protocol_header_forwarded exampleEnv exampleWriter exampleRequest
      exampleUpstreamRequest
      exampleResponse
      "Ehbp-Response-Nonce" rfl rfl (by decide) rfl (by decide)).1 "n1" [] (by decide)
      (by decide)⟩

theorem hasCORS_corsHeader (h : Header) : hasCORS (corsHeader h) := by
  unfold hasCORS
  simp [values_corsHeader]

theorem hasCORS_Error (w : ResponseWriter) (msg : String) (c : Nat) (h : hasCORS w.Header) :
    hasCORS (Error w msg c).Header := by
  unfold hasCORS at h ⊢
  rw [Error_Header]
  simpa [values_Set, values_Del] using h

theorem hasCORS_clientHeader (h : Header) (resp : Response) : hasCORS (clientHeader h resp) := by
  unfold hasCORS
  simp [values_clientHeader, values_corsHeader]

theorem committed_and_cors (env : Env) (w : ResponseWriter) (r : Request)
    (hw : w.committed = none) :
    ∃ c, (proxyHandler env w r).w.committed = some (c, (proxyHandler env w r).w.Header) ∧
      hasCORS (proxyHandler env w r).w.Header := by
  have hw1 : ({ w with Header := corsHeader w.Header } : ResponseWriter).committed = none := hw
  have hc1 : hasCORS ({ w with Header := corsHeader w.Header } : ResponseWriter).Header :=
    hasCORS_corsHeader _
  by_cases hm : r.Method = MethodOptions
  · rw [proxyHandler_options env w r hm]
    refine ⟨StatusNoContent, ?_, ?_⟩
    · simp only [WriteHeader_Header]
      exact WriteHeader_committed_of_none _ _ hw1
    · simp only [WriteHeader_Header]
      exact hc1
  · by_cases hb : r.Header.Get enclaveURLHeader = ""
    · rw [proxyHandler_no_target env w r hm hb]
      exact ⟨_, Error_committed _ _ _ hw1, hasCORS_Error _ _ _ hc1⟩
    · cases hp : env.urlParseErr (r.Header.Get enclaveURLHeader ++ r.Path) with
      | some e =>
        rw [proxyHandler_bad_url env w r e hm hb hp]
        exact ⟨_, Error_committed _ _ _ hw1, hasCORS_Error _ _ _ hc1⟩
      | none =>
        by_cases hk : env.Getenv "TINFOIL_API_KEY" = ""
        · rw [proxyHandler_no_key env w r hm hb hp hk]
          exact ⟨_, Error_committed _ _ _ hw1, hasCORS_Error _ _ _ hc1⟩
        · have hf : forwards env r := ⟨hm, hb, hp, hk⟩
          cases hdo : env.Do (forwardedRequest env r) with
          | error e =>
            rw [proxyHandler_unreachable env w r e hf hdo]
            exact ⟨_, Error_committed _ _ _ hw1, hasCORS_Error _ _ _ hc1⟩
          | ok resp =>
            obtain ⟨h1, h2, _⟩ := success_writer env w r resp hf hdo hw
            refine ⟨resp.StatusCode, ?_, ?_⟩
            · rw [h2, h1]
            · rw [h1]
              exact hasCORS_clientHeader _ _

/-- C7: every OPTIONS request is answered with status 204, an empty body and
no upstream call, whatever its headers, its body and the environment are;
and on every request a status is written, and the header map sent with it
(and the map as the handler leaves it) carries the four CORS headers with
the values set at the start of the handler. -/
theorem preflight_and_cors (env : Env) (w : ResponseWriter) (r : Request)
    (hw : w.committed = none) (hbody : w.body = []) :
    (r.Method = MethodOptions →
        (proxyHandler env w r).w.status = some StatusNoContent ∧
          (proxyHandler env w r).w.body = [] ∧ (proxyHandler env w r).calls = []) ∧
      (proxyHandler env w r).w.status ≠ none ∧
      hasCORS (proxyHandler env w r).w.sentHeader ∧
      hasCORS (proxyHandler env w r).w.Header := by
  obtain ⟨c, hc, hcors⟩ := committed_and_cors env w r hw
  obtain ⟨hs, hst⟩ := sentHeader_of_committed _ _ _ hc
  refine ⟨?_, by rw [hst]; simp, by rw [hs]; exact hcors, hcors⟩
  intro hm
  rw [proxyHandler_options env w r hm]
  refine ⟨?_, ?_, rfl⟩
  · exact (sentHeader_of_committed _ _ _ (WriteHeader_committed_of_none _ _ (by simpa using hw))).2
  · simp only [WriteHeader_body]
    exact hbody

theorem preflight_and_cors_witness :
    exampleWriter.committed = none ∧ exampleWriter.body = [] ∧
      (proxyHandler exampleEnv exampleWriter { exampleRequest with Method := "OPTIONS" }).w.status
        = some 204 ∧
      hasCORS
        (proxyHandler exampleEnv exampleWriter
          { exampleRequest with Method := "OPTIONS" }).w.sentHeader :=
  ⟨rfl, rfl,
    ((preflight_and_cors exampleEnv exampleWriter { exampleRequest with Method := "OPTIONS" }
      rfl rfl).1 rfl).1,
    (preflight_and_cors exampleEnv exampleWriter { exampleRequest with Method := "OPTIONS" }
      rfl rfl).2.2.1⟩

theorem success_delivery (env : Env) (w : ResponseWriter) (r : Request) (resp : Response)
    (hf : forwards env r) (hdo : env.Do (forwardedRequest env r) = .ok resp)
    (hw : w.committed = none) (hbody : w.body = []) (hacc : w.accepts resp.Body.bytes.length) :
    (proxyHandler env w r).w.status = some resp.StatusCode ∧
      (proxyHandler env w r).w.body = resp.Body.bytes := by
  obtain ⟨_, h2, h3⟩ := success_writer env w r resp hf hdo hw
  refine ⟨(sentHeader_of_committed _ _ _ h2).2, ?_⟩
  have hacc2 : (committedWriter w resp).accepts resp.Body.chunks.flatten.length := by
    intro b hb
    unfold committedWriter at hb
    rw [WriteHeader_budget] at hb
    exact hacc b hb
  rw [h3]
  unfold Copy
  rw [(ioCopy_Write_body resp.Body.err resp.Body.chunks _ 0 hacc2).1]
  unfold committedWriter
  simp [WriteHeader_body, hbody, Body.bytes]

/-- C9: for every forwarded request whose upstream call succeeds with status
`s` and a body read as any sequence of chunks, when the client accepts all
the bytes, the client receives status `s` and a body equal to the
concatenation of the chunks in order; this holds with and without flush
support, and `flushWriter.Write` returns the count and the error of the
underlying write. -/
theorem body_streamed_verbatim (env : Env) (w : ResponseWriter) (r : Request)
    (q : UpstreamRequest) (resp : Response) (hw : w.committed = none) (hbody : w.body = [])
    (hq : q ∈ (proxyHandler env w r).calls) (hdo : env.Do q = .ok resp)
    (hacc : w.accepts resp.Body.bytes.length) :
    ((proxyHandler env w r).w.status = some resp.StatusCode ∧
        (proxyHandler env w r).w.body = resp.Body.bytes) ∧
      ((proxyHandler env { w with isFlusher := true } r).w.status = some resp.StatusCode ∧
        (proxyHandler env { w with isFlusher := true } r).w.body = resp.Body.bytes) ∧
      ((proxyHandler env { w with isFlusher := false } r).w.status = some resp.StatusCode ∧
        (proxyHandler env { w with isFlusher := false } r).w.body = resp.Body.bytes) ∧
      (∀ (fw : flushWriter) (p : Bytes), (fw.Write p).2 = (fw.ResponseWriter.Write p).2) := by
  obtain ⟨hf, rfl⟩ := forwards_of_mem_calls env w r q hq
  refine ⟨success_delivery env w r resp hf hdo hw hbody hacc,
    success_delivery env _ r resp hf hdo hw hbody hacc,
    success_delivery env _ r resp hf hdo hw hbody hacc,
    fun fw p => (flushWriter_Write_sameClient fw p).2⟩

theorem body_streamed_verbatim_witness :
    exampleWriter.committed = none ∧ exampleWriter.body = [] ∧
      (proxyHandler exampleEnv exampleWriter exampleRequest).w.status = some 200 ∧
      (proxyHandler exampleEnv exampleWriter exampleRequest).w.body = [123, 34, 125] ∧
      (proxyHandler exampleEnv { exampleWriter with isFlusher := false } exampleRequest).w.body =
        [123, 34, 125] :=
  ⟨rfl, rfl,
    (body_streamed_verbatim exampleEnv exampleWriter exampleRequest
      exampleUpstreamRequest
      exampleResponse
      rfl rfl (by decide) rfl (fun b hb => by cases hb)).1.1,
    (body_streamed_verbatim exampleEnv exampleWriter exampleRequest
      exampleUpstreamRequest
      exampleResponse
      rfl rfl (by decide) rfl (fun b hb => by cases hb)).1.2,
    (body_streamed_verbatim exampleEnv exampleWriter exampleRequest
      exampleUpstreamRequest
      exampleResponse
      rfl rfl (by decide) rfl (fun b hb => by cases hb)).2.2.1.2⟩

/-- C10: for every forwarded request whose upstream response carries
`Transfer-Encoding` with a non-empty first value `te`, the header map sent
with the status has `Transfer-Encoding` set to `te` and has no
`Content-Length`. -/
theorem chunked_response_headers (env : Env) (w : ResponseWriter) (r : Request)
    (q : UpstreamRequest) (resp : Response) (te : String) (rest : List String)
    (hw : w.committed = none) (hq : q ∈ (proxyHandler env w r).calls)
    (hdo : env.Do q = .ok resp)
    (hte : resp.Header.values "Transfer-Encoding" = some (te :: rest)) (hne : te ≠ "") :
    (proxyHandler env w r).w.status = some resp.StatusCode ∧
      (proxyHandler env w r).w.sentHeader.values "Transfer-Encoding" = some [te] ∧
      (proxyHandler env w r).w.sentHeader.values "Content-Length" = none := by
  obtain ⟨hf, rfl⟩ := forwards_of_mem_calls env w r q hq
  obtain ⟨_, h2, _⟩ := success_writer env w r resp hf hdo hw
  obtain ⟨h3, h4⟩ := sentHeader_of_committed _ _ _ h2
  have hg := Get_of_values_cons resp.Header _ te rest canon_transfer_encoding hte
  rw [h3]
  refine ⟨h4, ?_, ?_⟩
  · simp [values_clientHeader, hg, hne]
  · simp [values_clientHeader, hg, hne]

theorem chunked_response_headers_witness :
    lengthWriter.committed = none ∧ "chunked" ≠ "" ∧
      (proxyHandler exampleEnv lengthWriter exampleRequest).w.status = some 200 ∧
      (proxyHandler exampleEnv lengthWriter exampleRequest).w.sentHeader.values
        "Transfer-Encoding" = some ["chunked"] ∧
      (proxyHandler exampleEnv lengthWriter exampleRequest).w.sentHeader.values
        "Content-Length" = none :=
  ⟨rfl, by decide,
    chunked_response_headers exampleEnv lengthWriter exampleRequest
      exampleUpstreamRequest
      exampleResponse
      "chunked" [] rfl (by decide) rfl (by decide) (by decide)⟩

end Proxy
